import Mathlib

/-!
Shallow embedding of the core logic of the single-file React course
application src/street_smarts_style_dropshipping_course_website.jsx.

Modelling conventions:
- JavaScript objects used as string-keyed maps (progress.completedLessons,
  progress.quizScores, the per-lesson answers object) are modelled as
  association lists; the spread-and-set idiom from the source, written
  as a spread of the old object followed by one key assignment, is the
  function setKey below (update the existing key in place, else append).
- The percentage pipeline Math.round((completedCount / totalLessons) * 100) || 0
  is modelled over the type JSNum, which carries explicit NaN and Infinity
  values and exact rational arithmetic in place of IEEE doubles; the spec
  states the formula in exact arithmetic as well.
- Date.now() in the admin add-module handler is passed in as an explicit
  natural-number parameter.
- localStorage.getItem and JSON.parse in loadProgress are passed in as an
  Option String (the stored value, none when the key is absent) and a
  parse function (none models a JSON.parse exception or a non-record value).
-/

namespace Dropship

/-- A quiz question: text, options, and the correct option index
(field a in the source). -/
structure Question where
  q : String
  options : List String
  a : Nat
deriving DecidableEq

/-- A lesson of the course tree. -/
structure Lesson where
  id : String
  title : String
  content : String
  video : Option String
  quiz : List Question
deriving DecidableEq

/-- A module of the course tree. -/
structure Module where
  id : String
  title : String
  lessons : List Lesson
deriving DecidableEq

/-- The course tree. -/
structure Course where
  id : String
  title : String
  subtitle : String
  description : String
  modules : List Module
deriving DecidableEq

/-- A stored quiz score entry, the object with fields score and outOf
written by handleQuizSubmit. -/
structure QuizScore where
  score : Nat
  outOf : Nat
deriving DecidableEq

/-- The progress record persisted to storage: completedLessons maps a
lesson id to a boolean (the source only ever writes true), quizScores
maps a lesson id to its last submitted score. -/
structure ProgressRecord where
  completedLessons : List (String × Bool)
  quizScores : List (String × QuizScore)
deriving DecidableEq

/-- JavaScript object update: the source idiom of spreading the old object
and assigning one key. The existing key keeps its position; a new key is
appended at the end. -/
def setKey {β : Type} : List (String × β) → String → β → List (String × β)
  | [], k, v => [(k, v)]
  | e :: rest, k, v => if e.1 = k then (k, v) :: rest else e :: setKey rest k v

/-- markComplete from the source: set completedLessons[lessonId] to true. -/
def markComplete (p : ProgressRecord) (lessonId : String) : ProgressRecord :=
  { p with completedLessons := setKey p.completedLessons lessonId true }

/-- A JavaScript number as produced by the arithmetic in this program:
NaN, positive Infinity, or a finite value (exact rational in the model). -/
inductive JSNum where
  | nan : JSNum
  | inf : JSNum
  | fin : ℚ → JSNum
deriving DecidableEq

/-- JavaScript division of two nonnegative integers: 0/0 is NaN, c/0 with
c positive is Infinity, otherwise exact division. -/
def jsDiv (a b : Nat) : JSNum :=
  if b = 0 then (if a = 0 then JSNum.nan else JSNum.inf) else JSNum.fin ((a : ℚ) / (b : ℚ))

/-- Multiplication of a JavaScript number by a positive literal constant. -/
def jsMul (x : JSNum) (k : ℚ) : JSNum :=
  match x with
  | JSNum.nan => JSNum.nan
  | JSNum.inf => JSNum.inf
  | JSNum.fin q => JSNum.fin (q * k)

/-- Math.round: round half toward positive infinity; NaN and Infinity pass
through. -/
def jsRound (x : JSNum) : JSNum :=
  match x with
  | JSNum.nan => JSNum.nan
  | JSNum.inf => JSNum.inf
  | JSNum.fin q => JSNum.fin ((⌊q + 1/2⌋ : ℤ) : ℚ)

/-- The or-zero idiom x || 0: NaN and 0 are falsy and give 0; Infinity and
nonzero finite values pass through. -/
def jsOrZero (x : JSNum) : JSNum :=
  match x with
  | JSNum.nan => JSNum.fin 0
  | JSNum.inf => JSNum.inf
  | JSNum.fin q => if q = 0 then JSNum.fin 0 else JSNum.fin q

/-- The quiz-pass test of handleQuizSubmit: score / outOf >= 0.5 in
JavaScript arithmetic (NaN compares false, Infinity compares true). -/
def quizPass (score outOf : Nat) : Bool :=
  match jsDiv score outOf with
  | JSNum.nan => false
  | JSNum.inf => true
  | JSNum.fin q => decide (q ≥ 1/2)

/-- handleQuizSubmit from the source: overwrite the score entry for the
lesson, then mark the lesson complete when the pass threshold is met. -/
def handleQuizSubmit (p : ProgressRecord) (lessonId : String) (score outOf : Nat) :
    ProgressRecord :=
  let p1 : ProgressRecord := { p with quizScores := setKey p.quizScores lessonId ⟨score, outOf⟩ }
  if quizPass score outOf then markComplete p1 lessonId else p1

/-- Truthiness of progress.completedLessons[id] as read by the source:
a missing key is falsy. -/
def lookupCompleted (p : ProgressRecord) (lessonId : String) : Bool :=
  (p.completedLessons.lookup lessonId).getD false

/-- totalLessons from the source: reduce over modules summing lesson counts. -/
def totalLessons (course : Course) : Nat :=
  course.modules.foldl (fun s m => s + m.lessons.length) 0

/-- completedCount from the source: Object.keys(progress.completedLessons).length.
JavaScript object keys are distinct, which corresponds to records whose
association list has pairwise distinct keys. -/
def completedCount (p : ProgressRecord) : Nat :=
  p.completedLessons.length

/-- The pct computation from the source:
Math.round((completedCount / totalLessons) * 100) || 0. -/
def pct (c t : Nat) : JSNum :=
  jsOrZero (jsRound (jsMul (jsDiv c t) 100))

/-- pct applied to a course and a progress record, as in the source. -/
def pctOf (course : Course) (p : ProgressRecord) : JSNum :=
  pct (completedCount p) (totalLessons course)

/-- The certificate availability rule from the source: every lesson of
every module is truthy in completedLessons. -/
def allDone (course : Course) (p : ProgressRecord) : Bool :=
  course.modules.all fun m => m.lessons.all fun l => lookupCompleted p l.id

/-- The grading loop of the quiz form submit handler: walk the quiz with
its index, incrementing the score when the selected answer equals the
correct index; a missing answer never matches. -/
def gradeScore (quiz : List Question) (answers : List (Nat × Nat)) : Nat :=
  quiz.enum.foldl (fun score e => if answers.lookup e.1 = some e.2.a then score + 1 else score) 0

/-- The pair passed to onSubmitQuiz: the computed score and the quiz length. -/
def grade (quiz : List Question) (answers : List (Nat × Nat)) : Nat × Nat :=
  (gradeScore quiz answers, quiz.length)

/-- The add handler of AdminAddModule: no-op on an empty title, otherwise
append one module whose id is derived from the clock. -/
def addModule (course : Course) (title : String) (now : Nat) : Course :=
  if title = "" then course
  else { course with
          modules := course.modules ++ [{ id := "m_" ++ toString now, title := title, lessons := [] }] }

/-- The default progress record rebuilt on a missing or unreadable store. -/
def defaultProgress : ProgressRecord :=
  ⟨[], []⟩

/-- loadProgress from the source: a missing key or an empty stored string
is falsy and yields the default; a JSON.parse failure is caught and yields
the default; otherwise the parsed record is returned. -/
def loadProgress (parse : String → Option ProgressRecord) (stored : Option String) :
    ProgressRecord :=
  match stored with
  | none => defaultProgress
  | some raw => if raw = "" then defaultProgress else (parse raw).getD defaultProgress

/-- All lesson ids of a course, module by module. -/
def lessonIdsOf (course : Course) : List String :=
  (course.modules.map fun m => m.lessons.map Lesson.id).flatten

/-- Stated from the spec for comparison with the source computation:
round(100 x |completedLessons intersected with the lessons of the course|
/ totalLessons), and 0 when totalLessons is 0. Rounding is half up,
written with natural division. -/
def specCompletionPercent (course : Course) (p : ProgressRecord) : Nat :=
  let t := totalLessons course
  let c := ((p.completedLessons.map Prod.fst).filter fun k => (lessonIdsOf course).contains k).length
  if t = 0 then 0 else (200 * c + t) / (2 * t)

/-- Half-up rounding of 100 * c / t as a natural-number formula. -/
def pctNat (c t : Nat) : Nat :=
  (200 * c + t) / (2 * t)

/-- Stated from the spec for comparison: the score of a graded quiz is the
number of question indices whose selected answer equals the correct index. -/
def specScore (quiz : List Question) (answers : List (Nat × Nat)) : Nat :=
  (quiz.enum.filter fun e => decide (answers.lookup e.1 = some e.2.a)).length

/-- Test fixture: a bare lesson with id a. -/
def lessonA : Lesson :=
  ⟨"a", "A", "", none, []⟩

/-- Test fixture: a bare lesson with id b. -/
def lessonB : Lesson :=
  ⟨"b", "B", "", none, []⟩

/-- Test fixture: a course with the single lesson a. -/
def course1 : Course :=
  ⟨"c1", "T", "", "", [⟨"m1", "M1", [lessonA]⟩]⟩

/-- Test fixture: a course with the two lessons a and b. -/
def course2 : Course :=
  ⟨"c2", "T", "", "", [⟨"m1", "M1", [lessonA, lessonB]⟩]⟩

/-- Test fixture: a course with one module and no lessons. -/
def courseEmpty : Course :=
  ⟨"c0", "T", "", "", [⟨"m1", "M1", []⟩]⟩

/-- Test fixture: a course that already contains a module with id m_0. -/
def courseM0 : Course :=
  ⟨"c", "T", "", "", [⟨"m_0", "M", []⟩]⟩

/-- Test fixture: a record completing lesson a plus a stale id z that occurs
in no course fixture. -/
def recStale : ProgressRecord :=
  ⟨[("a", true), ("z", true)], []⟩

/-- Test fixture: a record completing exactly lessons a and b. -/
def recAB : ProgressRecord :=
  ⟨[("a", true), ("b", true)], []⟩

/-- Test fixture: a record completing exactly lesson a. -/
def recA : ProgressRecord :=
  ⟨[("a", true)], []⟩

/-- Test fixture: a deserializer that accepts exactly the string ok. -/
def parse1 : String → Option ProgressRecord :=
  fun raw => if raw = "ok" then some recA else none

theorem lookup_cons_eq_if {β : Type} (e : String × β) (rest : List (String × β)) (k : String) :
    ((e :: rest).lookup k) = if k = e.1 then some e.2 else rest.lookup k := by
  obtain ⟨a, b⟩ := e
  rw [List.lookup_cons]
  by_cases h : k = a
  · simp [h]
  · simp [h, beq_false_of_ne h]

theorem lookup_setKey_self {β : Type} (m : List (String × β)) (k : String) (v : β) :
    (setKey m k v).lookup k = some v := by
  induction m with
  | nil => simp [setKey, lookup_cons_eq_if]
  | cons e rest ih =>
    by_cases h : e.1 = k
    · simp [setKey, h, lookup_cons_eq_if]
    · simp [setKey, h, lookup_cons_eq_if, fun hk : k = e.1 => h hk.symm, ih]
      exact fun hk => absurd hk.symm h

theorem lookup_setKey_ne {β : Type} (m : List (String × β)) (k k' : String) (v : β)
    (h : k' ≠ k) : (setKey m k v).lookup k' = m.lookup k' := by
  induction m with
  | nil => simp [setKey, lookup_cons_eq_if, h]
  | cons e rest ih =>
    by_cases he : e.1 = k
    · subst he
      simp [setKey, lookup_cons_eq_if, h, ih]
    · simp only [setKey, if_neg he]
      rw [lookup_cons_eq_if, lookup_cons_eq_if]
      by_cases hk : k' = e.1
      · simp [hk]
      · simp [hk, ih]

theorem setKey_setKey_same {β : Type} (m : List (String × β)) (k : String) (v : β) :
    setKey (setKey m k v) k v = setKey m k v := by
  induction m with
  | nil => simp [setKey]
  | cons e rest ih =>
    by_cases h : e.1 = k
    · simp [setKey, h]
    · simp [setKey, h, ih]

theorem setKey_of_lookup_eq {β : Type} (m : List (String × β)) (k : String) (v : β)
    (h : m.lookup k = some v) : setKey m k v = m := by
  induction m with
  | nil => simp at h
  | cons e rest ih =>
    rw [lookup_cons_eq_if] at h
    by_cases hk : k = e.1
    · rw [if_pos hk] at h
      simp only [Option.some.injEq] at h
      simp [setKey, hk.symm, Prod.ext_iff, h]
    · rw [if_neg hk] at h
      simp [setKey, fun he : e.1 = k => hk he.symm, ih h]
      exact fun he => absurd he.symm hk

theorem jsOrZero_fin (q : ℚ) : jsOrZero (JSNum.fin q) = JSNum.fin q := by
  by_cases h : q = 0 <;> simp [jsOrZero, h]

theorem round_div_eq_pctNat (c t : Nat) (ht : t ≠ 0) :
    (⌊((c : ℚ) / (t : ℚ)) * 100 + 1/2⌋ : ℤ) = (pctNat c t : ℤ) := by
  have ht' : (t : ℚ) ≠ 0 := Nat.cast_ne_zero.mpr ht
  have key : ((c : ℚ) / (t : ℚ)) * 100 + 1/2 =
      (((200 * c + t : ℕ) : ℤ) : ℚ) / ((2 * t : ℕ) : ℚ) := by
    push_cast
    field_simp
    ring
  rw [key, Rat.floor_intCast_div_natCast, ← Int.natCast_div]
  unfold pctNat
  norm_cast

theorem pct_eq_fin (c t : Nat) (ht : t ≠ 0) :
    pct c t = JSNum.fin ((pctNat c t : ℕ) : ℚ) := by
  unfold pct jsDiv jsMul jsRound
  simp only [if_neg ht]
  rw [jsOrZero_fin, round_div_eq_pctNat c t ht]
  norm_cast

theorem pctNat_le_100 {c t : ℕ} (hc : c ≤ t) : pctNat c t ≤ 100 := by
  rcases Nat.eq_zero_or_pos t with ht | ht
  · simp [pctNat, ht]
  · unfold pctNat
    have h : (200 * c + t) / (2 * t) < 101 := by
      rw [Nat.div_lt_iff_lt_mul (by omega)]
      omega
    omega

theorem pctNat_ge_100_iff {c t : ℕ} (ht : 0 < t) :
    100 ≤ pctNat c t ↔ 199 * t ≤ 200 * c := by
  unfold pctNat
  rw [Nat.le_div_iff_mul_le (by omega)]
  omega

theorem lookup_true_iff_mem (m : List (String × Bool))
    (hv : ∀ e ∈ m, e.2 = true) (k : String) :
    (m.lookup k).getD false = true ↔ k ∈ m.map Prod.fst := by
  induction m with
  | nil => simp
  | cons e rest ih =>
    rw [lookup_cons_eq_if]
    by_cases h : k = e.1
    · simp [h, hv e (by simp)]
    · simp [h, ih (fun x hx => hv x (by simp [hx]))]

theorem foldl_lessons_eq (ms : List Module) (s : Nat) :
    ms.foldl (fun s m => s + m.lessons.length) s =
      s + ((ms.map fun m => m.lessons.map Lesson.id).flatten).length := by
  induction ms generalizing s with
  | nil => simp
  | cons m rest ih =>
    simp only [List.foldl_cons, List.map_cons, List.flatten_cons, List.length_append,
      List.length_map, ih]
    omega

theorem totalLessons_eq_length (course : Course) :
    totalLessons course = (lessonIdsOf course).length := by
  unfold totalLessons lessonIdsOf
  simpa using foldl_lessons_eq course.modules 0

theorem allDone_iff (course : Course) (p : ProgressRecord) :
    allDone course p = true ↔ ∀ i ∈ lessonIdsOf course, lookupCompleted p i = true := by
  unfold allDone lessonIdsOf
  simp only [List.all_eq_true, List.mem_flatten, List.mem_map]
  constructor
  · rintro h i ⟨l, ⟨m, hm, rfl⟩, hi⟩
    obtain ⟨les, hles, rfl⟩ := List.mem_map.mp hi
    exact h m hm les hles
  · intro h m hm l hl
    exact h l.id ⟨m.lessons.map Lesson.id, ⟨m, hm, rfl⟩, List.mem_map_of_mem Lesson.id hl⟩

theorem quizPass_true_iff {score outOf : ℕ} (ho : outOf ≠ 0) :
    quizPass score outOf = true ↔ outOf ≤ 2 * score := by
  unfold quizPass jsDiv
  simp only [if_neg ho, decide_eq_true_eq]
  have ho' : (0:ℚ) < (outOf : ℚ) := Nat.cast_pos.mpr (Nat.pos_of_ne_zero ho)
  rw [ge_iff_le, div_le_div_iff₀ (by norm_num) ho', one_mul, mul_comm]
  norm_cast

theorem quizPass_false_iff {score outOf : ℕ} (ho : outOf ≠ 0) :
    quizPass score outOf = false ↔ 2 * score < outOf := by
  rw [← Bool.not_eq_true, quizPass_true_iff ho]
  omega

theorem lookup_setKey_isSome {β : Type} (m : List (String × β)) (k k' : String) (v : β)
    (h : (m.lookup k').isSome) : ((setKey m k v).lookup k').isSome := by
  by_cases hk : k' = k
  · subst hk
    rw [lookup_setKey_self]
    rfl
  · rw [lookup_setKey_ne m k k' v hk]
    exact h

theorem handleQuizSubmit_quizScores (p : ProgressRecord) (lessonId : String)
    (score outOf : Nat) :
    (handleQuizSubmit p lessonId score outOf).quizScores
      = setKey p.quizScores lessonId ⟨score, outOf⟩ := by
  unfold handleQuizSubmit markComplete
  by_cases hq : quizPass score outOf <;> simp [hq]

theorem handleQuizSubmit_completedLessons (p : ProgressRecord) (lessonId : String)
    (score outOf : Nat) :
    (handleQuizSubmit p lessonId score outOf).completedLessons
      = if quizPass score outOf then setKey p.completedLessons lessonId true
        else p.completedLessons := by
  unfold handleQuizSubmit markComplete
  by_cases hq : quizPass score outOf <;> simp [hq]

theorem half_le_div_iff {score outOf : ℕ} (ho : outOf ≠ 0) :
    (1/2 : ℚ) ≤ (score : ℚ) / (outOf : ℚ) ↔ outOf ≤ 2 * score := by
  have ho' : (0:ℚ) < (outOf : ℚ) := Nat.cast_pos.mpr (Nat.pos_of_ne_zero ho)
  rw [div_le_div_iff₀ (by norm_num) ho', one_mul, mul_comm]
  norm_cast

theorem foldl_count_eq_filter {α : Type} (l : List α) (P : α → Prop) [DecidablePred P]
    (s : Nat) :
    l.foldl (fun score e => if P e then score + 1 else score) s
      = s + (l.filter fun e => decide (P e)).length := by
  induction l generalizing s with
  | nil => simp
  | cons e rest ih =>
    by_cases h : P e
    · simp [h, ih]
      omega
    · simp [h, ih]

/-- Claim C5: markComplete is idempotent: applying it twice with the same
lessonId yields the same record as applying it once; it adds lessonId to
completedLessons, and it is a no-op on the record when the lesson is
already recorded as completed. -/
theorem markComplete_idempotent (p : ProgressRecord) (lessonId : String) :
    markComplete (markComplete p lessonId) lessonId = markComplete p lessonId
    ∧ lookupCompleted (markComplete p lessonId) lessonId = true
    ∧ (p.completedLessons.lookup lessonId = some true → markComplete p lessonId = p) := by
  refine ⟨?_, ?_, ?_⟩
  · unfold markComplete
    simp [setKey_setKey_same]
  · unfold lookupCompleted markComplete
    simp [lookup_setKey_self]
  · intro h
    unfold markComplete
    rw [setKey_of_lookup_eq _ _ _ h]

/-- Witness for C5 at a concrete record: marking lesson a complete when it
is already completed leaves the record unchanged. -/
theorem markComplete_idempotent_witness :
    markComplete recA "a" = recA :=
  (markComplete_idempotent recA "a").2.2 (by decide)

/-- Claim C10: frame property: markComplete leaves quizScores and every
completedLessons entry with a different key unchanged; handleQuizSubmit
leaves every quizScores entry and every completedLessons entry with a
different key unchanged; neither operation removes an entry from either
map. -/
theorem progress_ops_frame (p : ProgressRecord) (lessonId : String) (score outOf : Nat) :
    (markComplete p lessonId).quizScores = p.quizScores
    ∧ (∀ k, k ≠ lessonId →
        (markComplete p lessonId).completedLessons.lookup k = p.completedLessons.lookup k)
    ∧ (∀ k, (p.completedLessons.lookup k).isSome →
        ((markComplete p lessonId).completedLessons.lookup k).isSome)
    ∧ (∀ k, k ≠ lessonId →
        (handleQuizSubmit p lessonId score outOf).quizScores.lookup k
          = p.quizScores.lookup k)
    ∧ (∀ k, k ≠ lessonId →
        (handleQuizSubmit p lessonId score outOf).completedLessons.lookup k
          = p.completedLessons.lookup k)
    ∧ (∀ k, (p.quizScores.lookup k).isSome →
        ((handleQuizSubmit p lessonId score outOf).quizScores.lookup k).isSome)
    ∧ (∀ k, (p.completedLessons.lookup k).isSome →
        ((handleQuizSubmit p lessonId score outOf).completedLessons.lookup k).isSome) := by
  refine ⟨rfl, ?_, ?_, ?_, ?_, ?_, ?_⟩
  · exact fun k hk => lookup_setKey_ne _ _ _ _ hk
  · exact fun k h => lookup_setKey_isSome _ _ _ _ h
  · intro k hk
    rw [handleQuizSubmit_quizScores]
    exact lookup_setKey_ne _ _ _ _ hk
  · intro k hk
    rw [handleQuizSubmit_completedLessons]
    by_cases hq : quizPass score outOf
    · rw [if_pos hq]
      exact lookup_setKey_ne _ _ _ _ hk
    · rw [if_neg hq]
  · intro k h
    rw [handleQuizSubmit_quizScores]
    exact lookup_setKey_isSome _ _ _ _ h
  · intro k h
    rw [handleQuizSubmit_completedLessons]
    by_cases hq : quizPass score outOf
    · rw [if_pos hq]
      exact lookup_setKey_isSome _ _ _ _ h
    · rw [if_neg hq]
      exact h

/-- Witness for C10 at a concrete record: marking lesson a complete keeps
the completion entry of the unrelated lesson b. -/
theorem progress_ops_frame_witness :
    (markComplete recAB "z").completedLessons.lookup "b" = some true :=
  ((progress_ops_frame recAB "z" 0 0).2.1 "b" (by decide)).trans (by decide)

/-- Claim C3: handleQuizSubmit (recordQuizScore) with a positive outOf sets
the score entry for the lesson, overwriting any prior entry; when the
ratio score / outOf is at least one half (inclusive) the lesson is
completed afterwards; when it is below one half the completedLessons map
is left entirely unchanged, preserving any prior completion. -/
theorem recordQuizScore_spec (p : ProgressRecord) (lessonId : String)
    (score outOf : Nat) (ho : 0 < outOf) :
    (handleQuizSubmit p lessonId score outOf).quizScores.lookup lessonId
      = some ⟨score, outOf⟩
    ∧ ((1/2 : ℚ) ≤ (score : ℚ) / (outOf : ℚ) →
        lookupCompleted (handleQuizSubmit p lessonId score outOf) lessonId = true)
    ∧ ((score : ℚ) / (outOf : ℚ) < (1/2 : ℚ) →
        (handleQuizSubmit p lessonId score outOf).completedLessons
          = p.completedLessons) := by
  refine ⟨?_, ?_, ?_⟩
  · rw [handleQuizSubmit_quizScores]
    exact lookup_setKey_self _ _ _
  · intro h
    have hq : quizPass score outOf = true :=
      (quizPass_true_iff ho.ne').mpr ((half_le_div_iff ho.ne').mp h)
    unfold lookupCompleted
    rw [handleQuizSubmit_completedLessons, if_pos hq, lookup_setKey_self]
    rfl
  · intro h
    have hq : quizPass score outOf = false := by
      rw [quizPass_false_iff ho.ne']
      by_contra hc
      exact absurd ((half_le_div_iff ho.ne').mpr (by omega)) (not_le.mpr h)
    rw [handleQuizSubmit_completedLessons, if_neg (by simp [hq])]

/-- Witness for C3 at the boundary input score 1 out of 2: the ratio is
exactly one half, so the score is recorded and the lesson is completed. -/
theorem recordQuizScore_spec_witness :
    (handleQuizSubmit defaultProgress "l" 1 2).quizScores.lookup "l" = some ⟨1, 2⟩
    ∧ lookupCompleted (handleQuizSubmit defaultProgress "l" 1 2) "l" = true := by
  obtain ⟨h1, h2, _⟩ := recordQuizScore_spec defaultProgress "l" 1 2 (by norm_num)
  exact ⟨h1, h2 (by norm_num)⟩

/-- Claim C4: the grading loop returns outOf equal to the quiz length and
score equal to the number of question indices whose recorded answer equals
the correct index, a missing answer counting as incorrect; with every
answer matching the score equals the length, and with no answers the
score is 0. -/
theorem grade_spec (quiz : List Question) (answers : List (Nat × Nat)) :
    grade quiz answers = (specScore quiz answers, quiz.length)
    ∧ ((∀ e ∈ quiz.enum, answers.lookup e.1 = some e.2.a) →
        gradeScore quiz answers = quiz.length)
    ∧ gradeScore quiz [] = 0 := by
  have hmain : ∀ ans : List (Nat × Nat), gradeScore quiz ans = specScore quiz ans := by
    intro ans
    unfold gradeScore specScore
    simpa using foldl_count_eq_filter quiz.enum (fun e => ans.lookup e.1 = some e.2.a) 0
  refine ⟨?_, ?_, ?_⟩
  · unfold grade
    rw [hmain]
  · intro hall
    rw [hmain]
    unfold specScore
    have hfull : (quiz.enum.filter fun e => decide (answers.lookup e.1 = some e.2.a))
        = quiz.enum := by
      rw [List.filter_eq_self]
      intro e he
      simp [hall e he]
    rw [hfull, List.enum_length]
  · rw [hmain]
    unfold specScore
    simp

/-- Witness for C4: a two-question quiz graded once with every answer
correct and once with no answers. -/
theorem grade_spec_witness :
    gradeScore [⟨"Q1", ["x", "y"], 1⟩, ⟨"Q2", ["u", "v"], 0⟩] [(0, 1), (1, 0)] = 2
    ∧ gradeScore [⟨"Q1", ["x", "y"], 1⟩, ⟨"Q2", ["u", "v"], 0⟩] [] = 0 :=
  ⟨(grade_spec [⟨"Q1", ["x", "y"], 1⟩, ⟨"Q2", ["u", "v"], 0⟩] [(0, 1), (1, 0)]).2.1
      (by decide),
    (grade_spec [⟨"Q1", ["x", "y"], 1⟩, ⟨"Q2", ["u", "v"], 0⟩] []).2.2⟩

/-- Claim C9: on a course whose modules contain zero lessons in total,
including a course with no modules at all, the certificate check allDone
is vacuously true for every progress record. -/
theorem allDone_vacuous (course : Course) (p : ProgressRecord)
    (h : totalLessons course = 0) : allDone course p = true := by
  rw [allDone_iff]
  intro i hi
  exfalso
  have hlen := totalLessons_eq_length course
  rw [h] at hlen
  rw [List.length_eq_zero.mp hlen.symm] at hi
  simp at hi

/-- Witness for C9: the fixture course with one empty module and a record
with stale completions. -/
theorem allDone_vacuous_witness : allDone courseEmpty recStale = true :=
  allDone_vacuous courseEmpty recStale (by decide)

/-- Claim C8: loadProgress never fails the caller: a missing key yields the
default record, a stored value whose deserialization fails yields the
default record, and otherwise the deserialized record is returned. The
hypothesis records that the real deserializer rejects the empty string,
which the source additionally short-circuits as falsy. -/
theorem loadProgress_total (parse : String → Option ProgressRecord)
    (stored : Option String) (hp : parse "" = none) :
    (stored = none → loadProgress parse stored = defaultProgress)
    ∧ (∀ raw, stored = some raw → parse raw = none →
        loadProgress parse stored = defaultProgress)
    ∧ (∀ raw r, stored = some raw → parse raw = some r →
        loadProgress parse stored = r) := by
  refine ⟨?_, ?_, ?_⟩
  · rintro rfl
    rfl
  · rintro raw rfl hraw
    unfold loadProgress
    by_cases h : raw = "" <;> simp [h, hraw]
  · rintro raw r rfl hraw
    unfold loadProgress
    by_cases h : raw = ""
    · rw [h, hp] at hraw
      simp at hraw
    · simp [h, hraw]

/-- Witness for C8 with a concrete deserializer: missing key, rejected
value, and accepted value. -/
theorem loadProgress_total_witness :
    loadProgress parse1 none = defaultProgress
    ∧ loadProgress parse1 (some "bad") = defaultProgress
    ∧ loadProgress parse1 (some "ok") = recA :=
  ⟨(loadProgress_total parse1 none (by decide)).1 rfl,
    (loadProgress_total parse1 (some "bad") (by decide)).2.1 "bad" rfl (by decide),
    (loadProgress_total parse1 (some "ok") (by decide)).2.2 "ok" recA rfl (by decide)⟩

/-- Claim C7 (amended): addModule with an empty title leaves the course
unchanged; with a non-empty title it appends exactly one module with the
given title, empty lessons, and the clock-derived id; the appended id
keeps the module ids distinct only when it does not already occur among
them, a condition the code never checks. -/
theorem addModule_spec (course : Course) (title : String) (now : Nat) :
    (title = "" → addModule course title now = course)
    ∧ (title ≠ "" →
        (addModule course title now).modules
          = course.modules ++ [⟨"m_" ++ toString now, title, []⟩])
    ∧ (title ≠ "" →
        (course.modules.map Module.id).Nodup →
        ("m_" ++ toString now) ∉ course.modules.map Module.id →
        ((addModule course title now).modules.map Module.id).Nodup) := by
  refine ⟨?_, ?_, ?_⟩
  · intro h
    unfold addModule
    rw [if_pos h]
  · intro h
    unfold addModule
    rw [if_neg h]
  · intro h hnd hnotin
    unfold addModule
    rw [if_neg h]
    simp only [List.map_append, List.map_cons, List.map_nil]
    rw [List.nodup_append]
    refine ⟨hnd, List.nodup_singleton _, ?_⟩
    intro x hx hmem
    simp only [List.mem_singleton] at hmem
    subst hmem
    exact hnotin hx

/-- Witness for C7 at a concrete course, title and clock value. -/
theorem addModule_spec_witness :
    addModule course1 "" 5 = course1
    ∧ (addModule course1 "New" 5).modules
        = course1.modules ++ [⟨"m_" ++ toString 5, "New", []⟩]
    ∧ ((addModule course1 "New" 5).modules.map Module.id).Nodup := by
  obtain ⟨h1, -, -⟩ := addModule_spec course1 "" 5
  obtain ⟨-, h2, h3⟩ := addModule_spec course1 "New" 5
  exact ⟨h1 rfl, h2 (by decide), h3 (by decide) (by decide) (by decide)⟩

/-- Counterexample to C7 as stated: when the clock value collides with an
existing module id, the appended module id duplicates it, so the fresh id
is not unique among the existing module ids. -/
theorem addModule_fresh_id_cex :
    (addModule courseM0 "New" 0).modules.map Module.id = ["m_0", "m_0"]
    ∧ ¬ ((addModule courseM0 "New" 0).modules.map Module.id).Nodup :=
  ⟨by decide, by decide⟩

/-- Claim C6 (code bug evaluation): the or-zero guard only converts NaN:
on a course with zero lessons the source computation yields 0 for an
empty record, but yields positive Infinity as soon as the record contains
any completed-lesson entry, because completedCount / 0 is Infinity and
round and the or-zero guard both pass Infinity through; the spec requires
0 for every record. -/
theorem pct_zero_lessons_eval :
    totalLessons courseEmpty = 0
    ∧ pctOf courseEmpty defaultProgress = JSNum.fin 0
    ∧ pctOf courseEmpty recStale = JSNum.inf
    ∧ pctOf courseEmpty recStale ≠ JSNum.fin 0 :=
  ⟨by decide, by decide, by decide, by decide⟩

/-- Claim C1 (amended): for a course with at least one lesson and a record
with distinct completed keys, the source percentage is the half-up
rounding of 100 times the TOTAL number of completed-lesson entries over
totalLessons; completed ids that do not occur in the course are counted
in the numerator, not excluded. -/
theorem completionPercent_counts_all (course : Course) (p : ProgressRecord)
    (_hnd : (p.completedLessons.map Prod.fst).Nodup)
    (ht : totalLessons course ≠ 0) :
    pctOf course p
      = JSNum.fin ((pctNat (completedCount p) (totalLessons course) : ℕ) : ℚ)
    ∧ (⌊((completedCount p : ℚ) / (totalLessons course : ℚ)) * 100 + 1/2⌋ : ℤ)
        = (pctNat (completedCount p) (totalLessons course) : ℤ) :=
  ⟨pct_eq_fin _ _ ht, round_div_eq_pctNat _ _ ht⟩

/-- Witness for C1: one completed lesson of two gives 50 percent. -/
theorem completionPercent_counts_all_witness :
    pctOf course2 recA = JSNum.fin 50 := by
  have h := (completionPercent_counts_all course2 recA (by decide) (by decide)).1
  rw [h, (by decide : pctNat (completedCount recA) (totalLessons course2) = 50)]
  norm_num

/-- Counterexample to C1 as stated: on the one-lesson course, the record
with the stale id z yields 200 from the source computation while the spec
formula with the intersected numerator yields 100. -/
theorem completionPercent_intersection_cex :
    pctOf course1 recStale = JSNum.fin 200
    ∧ specCompletionPercent course1 recStale = 100
    ∧ pctOf course1 recStale
        ≠ JSNum.fin ((specCompletionPercent course1 recStale : ℕ) : ℚ) := by
  have h1 : pctOf course1 recStale = JSNum.fin 200 := by
    show pct 2 1 = JSNum.fin 200
    rw [pct_eq_fin 2 1 (by decide)]
    norm_num [pctNat]
  refine ⟨h1, by decide, ?_⟩
  rw [h1, (by decide : specCompletionPercent course1 recStale = 100)]
  intro hc
  rw [JSNum.fin.injEq] at hc
  norm_num at hc

/-- Claim C2 (amended): for a course with distinct lesson ids and between 1
and 199 lessons, and a well-formed record all of whose completed ids occur
in the course, the percentage is a finite value of at most 100 and equals
100 exactly when the certificate check passes. Without the containment
restriction the percentage can exceed 100 or reach 100 while the check
fails; with 200 or more lessons half-up rounding reaches 100 with one
lesson missing. -/
theorem completionPercent_range_iff_eligible (course : Course) (p : ProgressRecord)
    (hv : ∀ e ∈ p.completedLessons, e.2 = true)
    (hnd : (p.completedLessons.map Prod.fst).Nodup)
    (hids : (lessonIdsOf course).Nodup)
    (hsub : ∀ k ∈ p.completedLessons.map Prod.fst, k ∈ lessonIdsOf course)
    (ht : 0 < totalLessons course) (ht200 : totalLessons course < 200) :
    pctOf course p
      = JSNum.fin ((pctNat (completedCount p) (totalLessons course) : ℕ) : ℚ)
    ∧ pctNat (completedCount p) (totalLessons course) ≤ 100
    ∧ (pctNat (completedCount p) (totalLessons course) = 100
        ↔ allDone course p = true) := by
  have hklen : completedCount p = (p.completedLessons.map Prod.fst).length := by
    unfold completedCount
    rw [List.length_map]
  have htlen : totalLessons course = (lessonIdsOf course).length :=
    totalLessons_eq_length course
  have hsubper : List.Subperm (p.completedLessons.map Prod.fst) (lessonIdsOf course) :=
    List.subperm_of_subset hnd (by intro k hk; exact hsub k hk)
  have hct : completedCount p ≤ totalLessons course := by
    rw [hklen, htlen]
    exact hsubper.length_le
  refine ⟨pct_eq_fin _ _ ht.ne', pctNat_le_100 hct, ?_⟩
  constructor
  · intro h100
    have h199 : 199 * totalLessons course ≤ 200 * completedCount p :=
      (pctNat_ge_100_iff ht).mp (le_of_eq h100.symm)
    have hperm : List.Perm (p.completedLessons.map Prod.fst) (lessonIdsOf course) :=
      hsubper.perm_of_length_le (by omega)
    rw [allDone_iff]
    intro i hi
    rw [show lookupCompleted p i = (p.completedLessons.lookup i).getD false from rfl,
      lookup_true_iff_mem p.completedLessons hv i]
    exact hperm.mem_iff.mpr hi
  · intro hall
    have hsub2 : ∀ i ∈ lessonIdsOf course, i ∈ p.completedLessons.map Prod.fst := by
      intro i hi
      rw [← lookup_true_iff_mem p.completedLessons hv i]
      exact (allDone_iff course p).mp hall i hi
    have hsubper2 : List.Subperm (lessonIdsOf course) (p.completedLessons.map Prod.fst) :=
      List.subperm_of_subset hids (by intro k hk; exact hsub2 k hk)
    have htc : totalLessons course ≤ completedCount p := by
      rw [hklen, htlen]
      exact hsubper2.length_le
    exact le_antisymm (pctNat_le_100 hct) ((pctNat_ge_100_iff ht).mpr (by omega))

/-- Witness for C2: the two-lesson course with both lessons completed is at
100 percent and certificate eligible. -/
theorem completionPercent_range_iff_eligible_witness :
    pctOf course2 recAB = JSNum.fin 100 ∧ allDone course2 recAB = true := by
  obtain ⟨h1, -, -⟩ := completionPercent_range_iff_eligible course2 recAB
    (by decide) (by decide) (by decide) (by decide) (by decide) (by decide)
  refine ⟨?_, by decide⟩
  rw [h1, (by decide : pctNat (completedCount recAB) (totalLessons course2) = 100)]
  norm_num

/-- Counterexample to C2 as stated: the two-lesson course with a record
holding lesson a and the stale id z has a positive lesson count and a
source percentage of exactly 100, yet the certificate check fails. -/
theorem completionPercent_eligible_cex :
    0 < totalLessons course2
    ∧ pctOf course2 recStale = JSNum.fin 100
    ∧ allDone course2 recStale = false := by
  refine ⟨by decide, ?_, by decide⟩
  show pct 2 2 = JSNum.fin 100
  rw [pct_eq_fin 2 2 (by decide)]
  norm_num [pctNat]

end Dropship
